import Mathlib

/-!
Verification of the Cattle Brainfuck toolkit core: a shallow embedding of
the tape (`cattle-tape.c`), the execution engine (`cattle-interpreter.c`,
`run_real`), and a parser model (the parser sources are not available, so it
is modelled from the specification), together with theorems settling the
specification claims.
-/

namespace Cattle

/-- Size of a tape chunk (`CHUNK_SIZE` in `cattle-tape.c`). -/
def CHUNK_SIZE : Int := 128

/-- Reduction of an integer into the signed 8-bit range `-128..127`, the
effect of storing a value into a C `gchar` (two's complement). -/
def wrap8 (n : Int) : Int := (n + 128) % 256 - 128

/-- Embedding of `CattleTapePrivate` from `cattle-tape.c`.  The `GList` of
chunks is represented by the integer interval `minChunk..maxChunk` of chunk
identities; identities are stable when the list grows (as `GList` node
addresses are), `minChunk` is the first chunk (`head`) and `maxChunk` the
last.  `curChunk`/`offset` are the cursor (`current`/`offset`), `data` maps a
chunk identity and an offset to the cell value (fresh chunks are zero-filled,
so the total zero-default function models lazy allocation exactly), and
`bookmarks` is the bookmark stack of saved `(chunk, offset)` pairs. -/
structure CattleTape where
  minChunk : Int
  maxChunk : Int
  curChunk : Int
  offset : Int
  lower_limit : Int
  upper_limit : Int
  data : Int → Int → Int
  bookmarks : List (Int × Int)

/-- Embedding of `cattle_tape_init`: one zero-filled chunk, cursor at offset
0, both limits 0, empty bookmark stack. -/
def cattle_tape_new : CattleTape :=
  { minChunk := 0
    maxChunk := 0
    curChunk := 0
    offset := 0
    lower_limit := 0
    upper_limit := 0
    data := fun _ _ => 0
    bookmarks := [] }

/-- Embedding of `cattle_tape_set_current_value`.  The stored value passes
through a `gchar` parameter, hence the `wrap8`. -/
def cattle_tape_set_current_value (t : CattleTape) (v : Int) : CattleTape :=
  { t with data := fun c o =>
      if c = t.curChunk ∧ o = t.offset then wrap8 v else t.data c o }

/-- Embedding of `cattle_tape_get_current_value`. -/
def cattle_tape_get_current_value (t : CattleTape) : Int :=
  t.data t.curChunk t.offset

/-- Embedding of `cattle_tape_move_left`: at offset 0 move to the previous
chunk (allocating a new first chunk and setting `lower_limit` to
`CHUNK_SIZE - 1` when the current chunk is the first); otherwise decrement
the offset and, when in the first chunk, lower `lower_limit` to the new
offset if it went below it. -/
def cattle_tape_move_left (t : CattleTape) : CattleTape :=
  if t.offset = 0 then
    if t.curChunk = t.minChunk then
      { t with minChunk := t.minChunk - 1
               lower_limit := CHUNK_SIZE - 1
               curChunk := t.curChunk - 1
               offset := CHUNK_SIZE - 1 }
    else
      { t with curChunk := t.curChunk - 1, offset := CHUNK_SIZE - 1 }
  else
    { t with offset := t.offset - 1
             lower_limit :=
               if t.curChunk = t.minChunk ∧ t.offset - 1 < t.lower_limit then
                 t.offset - 1
               else t.lower_limit }

/-- Embedding of `cattle_tape_move_right`, symmetric to
`cattle_tape_move_left` with `upper_limit` in place of `lower_limit`. -/
def cattle_tape_move_right (t : CattleTape) : CattleTape :=
  if t.offset = CHUNK_SIZE - 1 then
    if t.curChunk = t.maxChunk then
      { t with maxChunk := t.maxChunk + 1
               upper_limit := 0
               curChunk := t.curChunk + 1
               offset := 0 }
    else
      { t with curChunk := t.curChunk + 1, offset := 0 }
  else
    { t with offset := t.offset + 1
             upper_limit :=
               if t.curChunk = t.maxChunk ∧ t.offset + 1 > t.upper_limit then
                 t.offset + 1
               else t.upper_limit }

/-- Embedding of `cattle_tape_is_at_beginning`: true exactly when the current
chunk is the first one and the offset equals `lower_limit`. -/
def cattle_tape_is_at_beginning (t : CattleTape) : Bool :=
  decide (t.curChunk = t.minChunk ∧ t.offset = t.lower_limit)

/-- Embedding of `cattle_tape_is_at_end`: true exactly when the current chunk
is the last one and the offset equals `upper_limit`. -/
def cattle_tape_is_at_end (t : CattleTape) : Bool :=
  decide (t.curChunk = t.maxChunk ∧ t.offset = t.upper_limit)

/-- Embedding of `cattle_tape_push_bookmark`: save `(curChunk, offset)` on
the bookmark stack. -/
def cattle_tape_push_bookmark (t : CattleTape) : CattleTape :=
  { t with bookmarks := (t.curChunk, t.offset) :: t.bookmarks }

/-- Embedding of `cattle_tape_pop_bookmark`: restore and remove the top
entry, returning `false` (tape unchanged) when the stack is empty. -/
def cattle_tape_pop_bookmark (t : CattleTape) : CattleTape × Bool :=
  match t.bookmarks with
  | [] => (t, false)
  | (c, o) :: rest =>
      ({ t with curChunk := c, offset := o, bookmarks := rest }, true)

/-- Single-step move directions. -/
inductive Move
  | left
  | right
deriving DecidableEq

/-- Application of one single-step move to a tape. -/
def applyMove (t : CattleTape) (m : Move) : CattleTape :=
  match m with
  | .left => cattle_tape_move_left t
  | .right => cattle_tape_move_right t

/-- Application of a sequence of single-step moves to a tape. -/
def applyMoves (t : CattleTape) (ms : List Move) : CattleTape :=
  ms.foldl applyMove t

/-- Embedding of `CattleInstructionValue` from `cattle-instruction.c`;
`noop` is `CATTLE_INSTRUCTION_NONE`. -/
inductive CattleInstructionValue
  | noop
  | moveLeft
  | moveRight
  | increase
  | decrease
  | loopBegin
  | loopEnd
  | read
  | print
  | dumpTape
deriving DecidableEq

/-- Embedding of a `CattleInstruction *`: either `NULL` (`nil`) or a node
with a value, a run-length `quantity` (a C `gint`/`glong`), a `loop` edge
and a `next` edge. -/
inductive CattleInstruction
  | nil
  | node (value : CattleInstructionValue) (quantity : Int)
      (loop : CattleInstruction) (next : CattleInstruction)
deriving DecidableEq

/-- Embedding of `CattleOnEofAction`: what a `Read` does at end-of-input
(`CATTLE_ON_EOF_STORE_ZERO` / `CATTLE_ON_EOF_STORE_EOF` /
`CATTLE_ON_EOF_DO_NOTHING`). -/
inductive CattleOnEofAction
  | storeZero
  | storeEof
  | doNothing
deriving DecidableEq

/-- Embedding of the `CattleConfiguration` surface read by `run_real`. -/
structure CattleConfiguration where
  debug_is_enabled : Bool
  on_eof_action : CattleOnEofAction
deriving DecidableEq

/-- Embedding of the interpreter session state (`CattleInterpreterPrivate`)
together with the callback environment.  `input` is the buffered input line
from the cursor on (`none` models a `NULL` `input_cursor`, `some []` an
exhausted NUL-terminated line); `program_input` is the program's literal
input as returned by `cattle_program_get_input`.  The three response lists
script the results of successive signal emissions (an exhausted list means
the default handler, which succeeds; for input it reports end-of-input), and
`output_trace` records the value passed to every output-request emission. -/
structure InterpState where
  tape : CattleTape
  had_input : Bool
  program_input : Option (List Int)
  input : Option (List Int)
  end_of_input_reached : Bool
  input_responses : List (Bool × Option (List Int))
  output_responses : List Bool
  debug_responses : List Bool
  output_trace : List Int

/-- Character under the input cursor; 0 when the cursor is `NULL` or the
line is exhausted (the terminating NUL byte). -/
def currentChar : Option (List Int) → Int
  | some (c :: _) => c
  | _ => 0

/-- Advance the input cursor one character (`g_utf8_next_char`). -/
def advanceCursor : Option (List Int) → Option (List Int)
  | some (_ :: rest) => some rest
  | x => x

/-- Consume the next scripted input-request result. -/
def nextInputResponse (st : InterpState) :
    (Bool × Option (List Int)) × InterpState :=
  match st.input_responses with
  | [] => ((true, none), st)
  | r :: rs => (r, { st with input_responses := rs })

/-- Consume the next scripted output-request result. -/
def nextOutputResponse (st : InterpState) : Bool × InterpState :=
  match st.output_responses with
  | [] => (true, st)
  | r :: rs => (r, { st with output_responses := rs })

/-- Consume the next scripted debug-request result. -/
def nextDebugResponse (st : InterpState) : Bool × InterpState :=
  match st.debug_responses with
  | [] => (true, st)
  | r :: rs => (r, { st with debug_responses := rs })

/-- STEP 2 of the `CATTLE_INSTRUCTION_READ` case of `run_real`: normalize
the current character into `temp`.  At end-of-input `temp` is `EOF` (-1);
on the terminating NUL with no program literal input, `temp` becomes `EOF`
and the end-of-input flag is set; on the terminating NUL with literal input
attached `temp` is 0 and the cursor does not move; otherwise `temp` is the
consumed character (a `gchar`, hence `wrap8`) and the cursor advances. -/
def readStep2 (st : InterpState) : InterpState × Int :=
  if st.end_of_input_reached then (st, -1)
  else
    let c := wrap8 (currentChar st.input)
    if c = 0 then
      if st.program_input = none then
        ({ st with end_of_input_reached := true }, -1)
      else (st, 0)
    else ({ st with input := advanceCursor st.input }, c)

/-- One iteration of the `for` loop in the `CATTLE_INSTRUCTION_READ` case of
`run_real` (STEP 1 then STEP 2).  When the program carried no literal input,
end-of-input has not been reached, and the buffer is `NULL` or exhausted,
the input-request callback is invoked: on callback failure the iteration
breaks out with the third component `false` and `temp` untouched; a `NULL`
result sets the end-of-input flag. -/
def readIter (st : InterpState) (temp : Int) : InterpState × Int × Bool :=
  if st.had_input = false ∧ st.end_of_input_reached = false ∧
      (st.input = none ∨ currentChar st.input = 0) then
    let (r, st1) := nextInputResponse st
    if r.1 then
      let st2 := { st1 with
        input := r.2
        end_of_input_reached :=
          if r.2 = none then true else st1.end_of_input_reached }
      let (st3, t) := readStep2 st2
      (st3, t, true)
    else (st1, temp, false)
  else
    let (st3, t) := readStep2 st
    (st3, t, true)

/-- The `for` loop of the `CATTLE_INSTRUCTION_READ` case: `n` iterations of
`readIter`, stopping early when the input callback fails. -/
def execReadLoop : Nat → InterpState → Int → InterpState × Int × Bool
  | 0, st, temp => (st, temp, true)
  | n + 1, st, temp =>
      match readIter st temp with
      | (st1, t1, true) => execReadLoop n st1 t1
      | (st1, t1, false) => (st1, t1, false)

/-- STEP 3 of the `CATTLE_INSTRUCTION_READ` case: at `EOF` apply the
configured on-EOF action, otherwise store the consumed character.  In the C
source this step sits after the `for` loop, so it runs once per `Read`
node. -/
def readStep3 (cfg : CattleConfiguration) (st : InterpState) (temp : Int) :
    InterpState :=
  if temp = -1 then
    match cfg.on_eof_action with
    | .storeZero => { st with tape := cattle_tape_set_current_value st.tape 0 }
    | .storeEof =>
        { st with tape := cattle_tape_set_current_value st.tape temp }
    | .doNothing => st
  else { st with tape := cattle_tape_set_current_value st.tape temp }

/-- Whole `CATTLE_INSTRUCTION_READ` case of `run_real`: the consumption loop
followed by the single STEP 3 (the C `temp` variable starts uninitialized;
it is modelled as 0, which no settled claim depends on). -/
def execRead (cfg : CattleConfiguration) (q : Int) (st : InterpState) :
    InterpState × Bool :=
  match execReadLoop q.toNat st 0 with
  | (st1, temp, ok) => (readStep3 cfg st1 temp, ok)

/-- The `CATTLE_INSTRUCTION_PRINT` case of `run_real`: up to `n` emissions
of the output-request signal with the current cell's value, stopping at the
first failure. -/
def execPrint : Nat → InterpState → InterpState × Bool
  | 0, st => (st, true)
  | n + 1, st =>
      let st1 := { st with
        output_trace :=
          st.output_trace ++ [cattle_tape_get_current_value st.tape] }
      let (r, st2) := nextOutputResponse st1
      if r then execPrint n st2 else (st2, false)

/-- The loop of the `CATTLE_INSTRUCTION_DUMP_TAPE` case of `run_real`: up to
`n` debug-request emissions, stopping at the first failure. -/
def execDump : Nat → InterpState → InterpState × Bool
  | 0, st => (st, true)
  | n + 1, st =>
      let (r, st1) := nextDebugResponse st
      if r then execDump n st1 else (st1, false)

/-- Iterated application of a tape operation (the `for` loops of the
`MOVE_LEFT`/`MOVE_RIGHT` cases). -/
def tapeIter (f : CattleTape → CattleTape) : Nat → CattleTape → CattleTape
  | 0, t => t
  | n + 1, t => tapeIter f n (f t)

/-- Embedding of `run_real` from `cattle-interpreter.c`, fuel-indexed (the
result is `none` when the fuel runs out).  The last argument selects between
the two recursions of the C source: `none` is a `run_real` invocation
walking the chain starting at the given instruction (the `do`/`while` with
its `success` threading), and `some s` is the `while` loop of the
`CATTLE_INSTRUCTION_LOOP_BEGIN` case running the given loop body, carrying
the current `success` value `s`.  That `while` loop re-runs the body
whenever the current cell is nonzero, regardless of `s`, exactly as the C
source does. -/
def runX : Nat → CattleConfiguration → CattleInstruction → InterpState →
    Option Bool → Option (InterpState × Bool)
  | 0, _, _, _, _ => none
  | f + 1, cfg, body, st, some s =>
      if cattle_tape_get_current_value st.tape ≠ 0 then
        match runX f cfg body st none with
        | none => none
        | some (st1, s1) => runX f cfg body st1 (some s1)
      else some (st, s)
  | _ + 1, _, .nil, st, none => some (st, true)
  | f + 1, cfg, .node v q lp nxt, st, none =>
      match v with
      | .loopEnd => some (st, true)
      | .loopBegin =>
          match lp with
          | .nil => runX f cfg nxt st none
          | .node _ _ _ _ =>
              match runX f cfg lp st (some true) with
              | none => none
              | some (st1, s1) =>
                  if s1 then runX f cfg nxt st1 none else some (st1, false)
      | .moveLeft =>
          runX f cfg nxt
            { st with tape := tapeIter cattle_tape_move_left q.toNat st.tape }
            none
      | .moveRight =>
          runX f cfg nxt
            { st with tape := tapeIter cattle_tape_move_right q.toNat st.tape }
            none
      | .increase =>
          runX f cfg nxt
            { st with tape := (cattle_tape_set_current_value st.tape
                (cattle_tape_get_current_value st.tape + q)) }
            none
      | .decrease =>
          runX f cfg nxt
            { st with tape := (cattle_tape_set_current_value st.tape
                (cattle_tape_get_current_value st.tape - q)) }
            none
      | .read =>
          match execRead cfg q st with
          | (st1, true) => runX f cfg nxt st1 none
          | (st1, false) => some (st1, false)
      | .print =>
          match execPrint q.toNat st with
          | (st1, true) => runX f cfg nxt st1 none
          | (st1, false) => some (st1, false)
      | .dumpTape =>
          if cfg.debug_is_enabled then
            match execDump q.toNat st with
            | (st1, true) => runX f cfg nxt st1 none
            | (st1, false) => some (st1, false)
          else runX f cfg nxt st none
      | .noop => runX f cfg nxt st none

/-- An invocation of `run_real` on the chain starting at `instr`. -/
def runReal (f : Nat) (cfg : CattleConfiguration) (instr : CattleInstruction)
    (st : InterpState) : Option (InterpState × Bool) :=
  runX f cfg instr st none

/-- The `while` loop of the `CATTLE_INSTRUCTION_LOOP_BEGIN` case of
`run_real`, carrying the current `success` value `s`. -/
def runLoop (f : Nat) (cfg : CattleConfiguration) (body : CattleInstruction)
    (st : InterpState) (s : Bool) : Option (InterpState × Bool) :=
  runX f cfg body st (some s)

/-- Embedding of `CattleProgramError` (from the `cattle-program.h`
declarations): the load-time failure modes. -/
inductive CattleProgramError
  | badUtf8
  | unmatchedBracket
  | unbalancedBrackets
deriving DecidableEq

/-- Embedding of a `CattleProgram`: the root instruction and the optional
literal input captured after the `!` sentinel. -/
structure CattleProgram where
  instructions : CattleInstruction
  input : Option (List Int)
deriving DecidableEq

/-- Modelled from the spec: classification of one source character by the
parser scan (`cattle-program.c` is not among the available sources).  The
eight standard operators plus `#` map to instruction values, `[`/`]` to the
loop markers; every other character is a comment and yields `none`. -/
def classifyChar (c : Char) : Option CattleInstructionValue :=
  if c = '+' then some .increase
  else if c = '-' then some .decrease
  else if c = '<' then some .moveLeft
  else if c = '>' then some .moveRight
  else if c = '.' then some .print
  else if c = ',' then some .read
  else if c = '#' then some .dumpTape
  else if c = '[' then some .loopBegin
  else if c = ']' then some .loopEnd
  else none

/-- Modelled from the spec: on the first `!` scanning stops and everything
after it is captured verbatim as the program's literal input. -/
def splitBang : List Char → List Char × Option (List Char)
  | [] => ([], none)
  | c :: cs =>
      if c = '!' then ([], some cs)
      else
        let (code, inp) := splitBang cs
        (c :: code, inp)

/-- Modelled from the spec: run-length compression of the scanned operator
stream.  Consecutive occurrences of the same non-bracket operator merge into
one entry whose quantity is the run length; `[`/`]` never merge and always
carry quantity 1.  (Whether compression may span skipped comment characters
is an open question in the spec; this model compresses the comment-filtered
stream, which the settled claims do not depend on.) -/
def compressToks : List CattleInstructionValue →
    List (CattleInstructionValue × Int)
  | [] => []
  | .loopBegin :: ts => (.loopBegin, 1) :: compressToks ts
  | .loopEnd :: ts => (.loopEnd, 1) :: compressToks ts
  | v :: ts =>
      match compressToks ts with
      | (w, q) :: rest =>
          if w = v then (v, q + 1) :: rest else (v, 1) :: (w, q) :: rest
      | [] => [(v, 1)]

/-- Assembly of a reversed list of built `(value, quantity, loop)` triples
into a forward instruction chain ending in `tail`. -/
def assembleChain (rev : List (CattleInstructionValue × Int × CattleInstruction))
    (tail : CattleInstruction) : CattleInstruction :=
  rev.foldl (fun acc e => .node e.1 e.2.1 e.2.2 acc) tail

/-- Modelled from the spec: tree construction with nested-loop scoping.  The
stack holds, innermost first, the reversed chains under construction.  On
`[` a new chain is begun; on `]` a `LoopEnd` node (quantity 1, no `next`) is
appended to the current chain, which becomes the `loop` edge of a new
`LoopBegin` node appended to the parent chain; a `]` with no open loop fails
with `unmatchedBracket`; a stack still open at end of input fails with
`unbalancedBrackets`. -/
def parseToks : List (CattleInstructionValue × Int) →
    List (List (CattleInstructionValue × Int × CattleInstruction)) →
    Except CattleProgramError CattleInstruction
  | [], [top] => .ok (assembleChain top .nil)
  | [], _ => .error .unbalancedBrackets
  | (v, q) :: ts, stack =>
      match v, stack with
      | .loopBegin, _ => parseToks ts ([] :: stack)
      | .loopEnd, top :: parent :: rest =>
          parseToks ts
            (((CattleInstructionValue.loopBegin, 1,
              assembleChain top (.node .loopEnd 1 .nil .nil)) :: parent) :: rest)
      | .loopEnd, _ => .error .unmatchedBracket
      | _, top :: rest => parseToks ts (((v, q, .nil) :: top) :: rest)
      | _, [] => .error .unmatchedBracket

/-- The Program state after loading the empty source text: a single `NoOp`
node with no `next` and no `loop`, and no literal input. -/
def emptyProgramState : CattleProgram :=
  { instructions := .node .noop 1 .nil .nil, input := none }

/-- Modelled from the spec: `cattle_program_load`.  The text is scanned up
to the `!` sentinel, compressed and parsed; on any parse failure the Program
is left in the same state as the empty-program load (a single `NoOp` node),
and the error is reported.  A text with no recognized operators also yields
the single `NoOp` node.  (The `BadUtf8` failure concerns byte-level UTF-8
validity, which a `List Char` model cannot exhibit.) -/
def cattle_program_load (text : List Char) :
    CattleProgram × Option CattleProgramError :=
  let code := (splitBang text).1
  let inp : Option (List Int) :=
    (splitBang text).2.map (List.map fun c => (c.toNat : Int))
  match parseToks (compressToks (code.filterMap classifyChar)) [[]] with
  | .error e => (emptyProgramState, some e)
  | .ok .nil => ({ instructions := .node .noop 1 .nil .nil, input := inp }, none)
  | .ok chain => ({ instructions := chain, input := inp }, none)

/-- Embedding of `cattle_interpreter_run`: build the initial session state
from the loaded program (the input cursor starts at the program's literal
input, `had_input` records whether there was one) and walk the instruction
chain with `run_real`. -/
def cattle_interpreter_run (fuel : Nat) (cfg : CattleConfiguration)
    (prog : CattleProgram) (inputR : List (Bool × Option (List Int)))
    (outputR : List Bool) (debugR : List Bool) : Option (InterpState × Bool) :=
  runReal fuel cfg prog.instructions
    { tape := cattle_tape_new
      had_input := prog.input.isSome
      program_input := prog.input
      input := prog.input
      end_of_input_reached := false
      input_responses := inputR
      output_responses := outputR
      debug_responses := debugR
      output_trace := [] }

/-- Specification-level counting helper for `Print`: how many output
emissions happen for `n` repetitions against the scripted responses (an
exhausted script means the default handler, which succeeds); the count stops
at the first failing response. -/
def numEmit : Nat → List Bool → Nat
  | 0, _ => 0
  | n + 1, [] => n + 1
  | n + 1, true :: rs => numEmit n rs + 1
  | _ + 1, false :: _ => 1

/-- Specification-level success flag for `Print`: whether the first `n`
emissions all succeed (an exhausted script succeeds). -/
def printOk : Nat → List Bool → Bool
  | 0, _ => true
  | _ + 1, [] => true
  | n + 1, true :: rs => printOk n rs
  | _ + 1, false :: _ => false

/-- Initial interpreter session state used by the concrete executions below:
fresh tape, no literal input, and the given scripted callback responses. -/
def mkState (inputR : List (Bool × Option (List Int))) (outputR : List Bool) :
    InterpState :=
  { tape := cattle_tape_new
    had_input := false
    program_input := none
    input := none
    end_of_input_reached := false
    input_responses := inputR
    output_responses := outputR
    debug_responses := []
    output_trace := [] }

/-- Loop body `.` `-` `]` of the demonstration program for the loop-failure
behavior: print once, decrement once, then the loop's `LoopEnd`. -/
def demoLoopBody : CattleInstruction :=
  .node .print 1 .nil (.node .decrease 1 .nil (.node .loopEnd 1 .nil .nil))

/-- Demonstration program `++[.-]`: set the cell to 2, then loop printing
and decrementing it. -/
def demoLoopProg : CattleInstruction :=
  .node .increase 2 .nil (.node .loopBegin 1 demoLoopBody .nil)

/-- Session state for the loop-failure demonstration: the output callback
fails on its first invocation and succeeds afterwards. -/
def demoLoopState : InterpState := mkState [] [false, true, true]

/-- Session state for the read-repetition demonstration: the input callback
first supplies the one-character line `"a"`, then reports end-of-input. -/
def demoReadState : InterpState := mkState [(true, some [97]), (true, none)] []

/-- Configuration used by the concrete executions: debugging disabled,
on-EOF action `DO_NOTHING`. -/
def demoCfg : CattleConfiguration := ⟨false, .doNothing⟩

/-- Session state whose end-of-input flag is already set. -/
def demoEofState : InterpState :=
  { mkState [] [] with end_of_input_reached := true }

/-- Tape obtained from a fresh tape by one left move (which grows the tape)
followed by one right move: the cursor is back in chunk 0, which is no
longer the first chunk. -/
def demoGrownTape : CattleTape :=
  applyMoves cattle_tape_new [Move.left, Move.right]

theorem applyMove_bookmarks (t : CattleTape) (m : Move) :
    (applyMove t m).bookmarks = t.bookmarks := by
  cases m
  · show (cattle_tape_move_left t).bookmarks = t.bookmarks
    unfold cattle_tape_move_left
    split
    · split <;> rfl
    · rfl
  · show (cattle_tape_move_right t).bookmarks = t.bookmarks
    unfold cattle_tape_move_right
    split
    · split <;> rfl
    · rfl

theorem applyMoves_bookmarks (t : CattleTape) (ms : List Move) :
    (applyMoves t ms).bookmarks = t.bookmarks := by
  induction ms generalizing t with
  | nil => rfl
  | cons m ms ih =>
      show (applyMoves (applyMove t m) ms).bookmarks = t.bookmarks
      rw [ih, applyMove_bookmarks]

theorem pop_of_bookmarks_cons (t : CattleTape) (c o : Int)
    (rest : List (Int × Int)) (h : t.bookmarks = (c, o) :: rest) :
    cattle_tape_pop_bookmark t =
      ({ t with curChunk := c, offset := o, bookmarks := rest }, true) := by
  unfold cattle_tape_pop_bookmark
  rw [h]

theorem move_left_outside_first_chunk (t : CattleTape)
    (h : t.curChunk ≠ t.minChunk) :
    (cattle_tape_move_left t).lower_limit = t.lower_limit ∧
    (cattle_tape_move_left t).minChunk = t.minChunk := by
  by_cases h0 : t.offset = 0 <;> simp [cattle_tape_move_left, h0, h]

theorem move_right_keeps_lower (t : CattleTape) :
    (cattle_tape_move_right t).lower_limit = t.lower_limit ∧
    (cattle_tape_move_right t).minChunk = t.minChunk := by
  unfold cattle_tape_move_right
  split
  · split <;> exact ⟨rfl, rfl⟩
  · exact ⟨rfl, rfl⟩

theorem move_right_outside_last_chunk (t : CattleTape)
    (h : t.curChunk ≠ t.maxChunk) :
    (cattle_tape_move_right t).upper_limit = t.upper_limit ∧
    (cattle_tape_move_right t).maxChunk = t.maxChunk := by
  by_cases h0 : t.offset = CHUNK_SIZE - 1 <;>
    simp [cattle_tape_move_right, h0, h]

theorem move_left_keeps_upper (t : CattleTape) :
    (cattle_tape_move_left t).upper_limit = t.upper_limit ∧
    (cattle_tape_move_left t).maxChunk = t.maxChunk := by
  unfold cattle_tape_move_left
  split
  · split <;> exact ⟨rfl, rfl⟩
  · exact ⟨rfl, rfl⟩

/-- Claim C10: on a freshly created tape, before any move or write,
`is_at_beginning` and `is_at_end` both return true (the single initial chunk
is simultaneously first and last, with cursor offset equal to both limits),
and `get_current_value` returns 0. -/
theorem c10_fresh_tape :
    cattle_tape_is_at_beginning cattle_tape_new = true ∧
    cattle_tape_is_at_end cattle_tape_new = true ∧
    cattle_tape_get_current_value cattle_tape_new = 0 ∧
    cattle_tape_new.minChunk = cattle_tape_new.maxChunk ∧
    cattle_tape_new.offset = cattle_tape_new.lower_limit ∧
    cattle_tape_new.offset = cattle_tape_new.upper_limit :=
  ⟨by decide, by decide, rfl, rfl, rfl, rfl⟩

/-- Claim C3: after any sequence of single-step moves, `is_at_beginning`
(resp. `is_at_end`) returns true exactly when the cursor is in the first
(resp. last) chunk and its offset equals `lower_limit` (resp. `upper_limit`),
and a single-step move leaves `lower_limit` (resp. `upper_limit`) and the
first (resp. last) chunk untouched whenever the cursor is not literally in
the first (resp. last) chunk — the outer-chunk-only limit-tracking rule. -/
theorem c3_boundary_limits :
    (∀ (t : CattleTape) (ms : List Move),
      (cattle_tape_is_at_beginning (applyMoves t ms) = true ↔
        (applyMoves t ms).curChunk = (applyMoves t ms).minChunk ∧
          (applyMoves t ms).offset = (applyMoves t ms).lower_limit) ∧
      (cattle_tape_is_at_end (applyMoves t ms) = true ↔
        (applyMoves t ms).curChunk = (applyMoves t ms).maxChunk ∧
          (applyMoves t ms).offset = (applyMoves t ms).upper_limit)) ∧
    (∀ (t : CattleTape) (m : Move), t.curChunk ≠ t.minChunk →
      (applyMove t m).lower_limit = t.lower_limit ∧
      (applyMove t m).minChunk = t.minChunk) ∧
    (∀ (t : CattleTape) (m : Move), t.curChunk ≠ t.maxChunk →
      (applyMove t m).upper_limit = t.upper_limit ∧
      (applyMove t m).maxChunk = t.maxChunk) := by
  refine ⟨fun t ms => ⟨?_, ?_⟩, fun t m h => ?_, fun t m h => ?_⟩
  · simp [cattle_tape_is_at_beginning]
  · simp [cattle_tape_is_at_end]
  · cases m
    · exact move_left_outside_first_chunk t h
    · exact move_right_keeps_lower t
  · cases m
    · exact move_left_keeps_upper t
    · exact move_right_outside_last_chunk t h

/-- Witness for C3 at a concrete input: after growing the tape to the left
and returning to chunk 0 (no longer the first chunk), a further left move
leaves `lower_limit` unchanged. -/
theorem c3_boundary_limits_witness :
    (applyMove demoGrownTape Move.left).lower_limit =
      demoGrownTape.lower_limit :=
  (c3_boundary_limits.2.1 demoGrownTape Move.left (by decide)).1

/-- Claim C6: `push_bookmark` followed by any sequence of single-step moves
followed by `pop_bookmark` succeeds and restores the cursor position (chunk
and offset) exactly to what it was at the push; `pop_bookmark` on an empty
bookmark stack returns failure and leaves the tape unchanged. -/
theorem c6_bookmark_roundtrip :
    (∀ (t : CattleTape) (ms : List Move),
      (cattle_tape_pop_bookmark
          (applyMoves (cattle_tape_push_bookmark t) ms)).2 = true ∧
      (cattle_tape_pop_bookmark
          (applyMoves (cattle_tape_push_bookmark t) ms)).1.curChunk =
        t.curChunk ∧
      (cattle_tape_pop_bookmark
          (applyMoves (cattle_tape_push_bookmark t) ms)).1.offset =
        t.offset) ∧
    (∀ t : CattleTape, t.bookmarks = [] →
      cattle_tape_pop_bookmark t = (t, false)) := by
  constructor
  · intro t ms
    have h : (applyMoves (cattle_tape_push_bookmark t) ms).bookmarks =
        (t.curChunk, t.offset) :: t.bookmarks := by
      rw [applyMoves_bookmarks]
      rfl
    rw [pop_of_bookmarks_cons _ _ _ _ h]
    exact ⟨rfl, rfl, rfl⟩
  · intro t h
    unfold cattle_tape_pop_bookmark
    rw [h]

/-- Witness for C6 at concrete inputs: a push, a left and a right move, then
a pop restores the fresh tape's cursor, and a pop on the fresh tape (empty
bookmark stack) fails and leaves it unchanged. -/
theorem c6_bookmark_roundtrip_witness :
    ((cattle_tape_pop_bookmark
        (applyMoves (cattle_tape_push_bookmark cattle_tape_new)
          [Move.left, Move.right])).2 = true ∧
      (cattle_tape_pop_bookmark
        (applyMoves (cattle_tape_push_bookmark cattle_tape_new)
          [Move.left, Move.right])).1.curChunk = cattle_tape_new.curChunk ∧
      (cattle_tape_pop_bookmark
        (applyMoves (cattle_tape_push_bookmark cattle_tape_new)
          [Move.left, Move.right])).1.offset = cattle_tape_new.offset) ∧
    cattle_tape_pop_bookmark cattle_tape_new = (cattle_tape_new, false) :=
  ⟨c6_bookmark_roundtrip.1 cattle_tape_new [Move.left, Move.right],
    c6_bookmark_roundtrip.2 cattle_tape_new rfl⟩

/-- Claim C4: executing an `Increase` (resp. `Decrease`) node adds (resp.
subtracts) the node's quantity to the current cell in a single write; the
value that ends up in the cell is the argument reduced modulo 256 into the
signed range `-128..127`, and in particular `127 + 1` yields `-128`. -/
theorem c4_increase_decrease_wrap :
    (∀ (f : Nat) (cfg : CattleConfiguration) (q : Int)
        (lp nxt : CattleInstruction) (st : InterpState),
      runReal (f + 1) cfg (.node .increase q lp nxt) st =
        runReal f cfg nxt
          { st with tape := (cattle_tape_set_current_value st.tape
              (cattle_tape_get_current_value st.tape + q)) } ∧
      runReal (f + 1) cfg (.node .decrease q lp nxt) st =
        runReal f cfg nxt
          { st with tape := (cattle_tape_set_current_value st.tape
              (cattle_tape_get_current_value st.tape - q)) }) ∧
    (∀ (t : CattleTape) (v : Int),
      cattle_tape_get_current_value (cattle_tape_set_current_value t v) =
        wrap8 v) ∧
    (∀ n : Int, -128 ≤ wrap8 n ∧ wrap8 n ≤ 127 ∧ (256 : Int) ∣ n - wrap8 n) ∧
    wrap8 (127 + 1) = -128 := by
  refine ⟨fun f cfg q lp nxt st => ⟨rfl, rfl⟩, fun t v => ?_, fun n => ?_, by decide⟩
  · simp [cattle_tape_get_current_value, cattle_tape_set_current_value]
  · have h1 : 0 ≤ (n + 128) % 256 := Int.emod_nonneg _ (by norm_num)
    have h2 : (n + 128) % 256 < 256 := Int.emod_lt_of_pos _ (by norm_num)
    have h3 := Int.ediv_add_emod (n + 128) 256
    exact ⟨by simp [wrap8]; omega, by simp [wrap8]; omega,
      ⟨(n + 128) / 256, by simp [wrap8]; omega⟩⟩

/-- Claim C5: for a `LoopBegin` node with a loop body, when the current cell
is zero execution proceeds directly to the node's `next` edge; when it is
nonzero the entire body chain is run to completion (one full `run_real`
pass) before the loop's `while` condition is consulted again — there is no
mid-body re-check. -/
theorem c5_loop_full_pass :
    (∀ (f : Nat) (cfg : CattleConfiguration) (q : Int)
        (body nxt : CattleInstruction) (st : InterpState),
      body ≠ .nil →
      cattle_tape_get_current_value st.tape = 0 →
      runReal (f + 2) cfg (.node .loopBegin q body nxt) st =
        runReal (f + 1) cfg nxt st) ∧
    (∀ (f : Nat) (cfg : CattleConfiguration) (q : Int)
        (body nxt : CattleInstruction) (st : InterpState),
      body ≠ .nil →
      cattle_tape_get_current_value st.tape ≠ 0 →
      runReal (f + 2) cfg (.node .loopBegin q body nxt) st =
        match runReal f cfg body st with
        | none => none
        | some (st1, s1) =>
            match runLoop f cfg body st1 s1 with
            | none => none
            | some (st2, s2) =>
                if s2 then runReal (f + 1) cfg nxt st2
                else some (st2, false)) := by
  constructor
  · intro f cfg q body nxt st hb h0
    cases body with
    | nil => exact absurd rfl hb
    | node v2 q2 lp2 nx2 => simp [runReal, runX, h0]
  · intro f cfg q body nxt st hb h0
    cases body with
    | nil => exact absurd rfl hb
    | node v2 q2 lp2 nx2 =>
        simp only [runReal, runLoop, runX, h0, ne_eq, not_false_iff, if_true]
        cases hbody : runX f cfg (.node v2 q2 lp2 nx2) st none with
        | none => rfl
        | some p => rfl

/-- Witness for C5 at a concrete input: with a fresh tape (cell 0), the
`LoopBegin` of the demonstration loop proceeds straight to its `next`
edge. -/
theorem c5_loop_full_pass_witness :
    runReal 2 demoCfg (.node .loopBegin 1 demoLoopBody .nil) (mkState [] []) =
      runReal 1 demoCfg .nil (mkState [] []) :=
  c5_loop_full_pass.1 0 demoCfg 1 demoLoopBody .nil (mkState [] [])
    (by decide) (by decide)

theorem execReadLoop_eoi (n : Nat) (st : InterpState) (temp : Int)
    (h : st.end_of_input_reached = true) :
    execReadLoop n st temp = (st, if n = 0 then temp else -1, true) := by
  have hc : ¬(st.had_input = false ∧ st.end_of_input_reached = false ∧
      (st.input = none ∨ currentChar st.input = 0)) := by
    rw [h]; simp
  have hiter : ∀ t : Int, readIter st t = (st, -1, true) := by
    intro t
    unfold readIter
    rw [if_neg hc]
    unfold readStep2
    rw [if_pos h]
  induction n generalizing temp with
  | zero => simp [execReadLoop]
  | succ n ih => simp [execReadLoop, hiter, ih]

/-- Claim C8: a `Read` at end-of-input applies exactly the configured on-EOF
policy to the current cell: `STORE_ZERO` stores 0, `STORE_EOF` stores the
literal `EOF` marker value (-1), and `DO_NOTHING` leaves the cell — and the
whole session state — unchanged. -/
theorem c8_eof_policy (f : Nat) (cfg : CattleConfiguration) (q : Int)
    (lp nxt : CattleInstruction) (st : InterpState)
    (he : st.end_of_input_reached = true) (hq : 1 ≤ q) :
    runReal (f + 1) cfg (.node .read q lp nxt) st =
      runReal f cfg nxt
        { st with tape :=
            match cfg.on_eof_action with
            | .storeZero => cattle_tape_set_current_value st.tape 0
            | .storeEof => cattle_tape_set_current_value st.tape (-1)
            | .doNothing => st.tape } := by
  have hn : ¬q.toNat = 0 := by omega
  have hloop := execReadLoop_eoi q.toNat st 0 he
  rw [if_neg hn] at hloop
  have hread : execRead cfg q st = (readStep3 cfg st (-1), true) := by
    unfold execRead
    rw [hloop]
  rcases cfg with ⟨dbg, act⟩
  cases act <;>
    simp [runReal, runX, hread, readStep3]

/-- Witness for C8 at a concrete input: with the end-of-input flag set and
the `STORE_ZERO` policy, a `Read` of quantity 1 stores 0. -/
theorem c8_eof_policy_witness :
    runReal 1 ⟨false, .storeZero⟩ (.node .read 1 .nil .nil) demoEofState =
      runReal 0 ⟨false, .storeZero⟩ .nil
        { demoEofState with
          tape := cattle_tape_set_current_value demoEofState.tape 0 } :=
  c8_eof_policy 0 ⟨false, .storeZero⟩ 1 .nil .nil demoEofState rfl (by decide)

theorem numEmit_nil (n : Nat) : numEmit n [] = n := by cases n <;> rfl

theorem printOk_nil (n : Nat) : printOk n [] = true := by cases n <;> rfl

theorem execPrint_spec (n : Nat) (st : InterpState) :
    (execPrint n st).1.output_trace =
      st.output_trace ++ List.replicate (numEmit n st.output_responses)
        (cattle_tape_get_current_value st.tape) ∧
    (execPrint n st).2 = printOk n st.output_responses := by
  induction n generalizing st with
  | zero => simp [execPrint, numEmit, printOk]
  | succ n ih =>
      obtain ⟨tp, hi, pi, inp, eoi, ir, orsp, dr, tr⟩ := st
      rcases orsp with _ | ⟨b, rs⟩
      · have h := ih ⟨tp, hi, pi, inp, eoi, ir, [], dr,
          tr ++ [cattle_tape_get_current_value tp]⟩
        simpa [execPrint, nextOutputResponse, numEmit_nil, printOk_nil,
          List.replicate_succ] using h
      · cases b
        · simp [execPrint, nextOutputResponse, numEmit, printOk,
            List.replicate_succ]
        · have h := ih ⟨tp, hi, pi, inp, eoi, ir, rs, dr,
            tr ++ [cattle_tape_get_current_value tp]⟩
          simpa [execPrint, nextOutputResponse, numEmit, printOk,
            List.replicate_succ] using h

theorem numEmit_le (n : Nat) (rs : List Bool) : numEmit n rs ≤ n := by
  induction n generalizing rs with
  | zero => simp [numEmit]
  | succ n ih =>
      rcases rs with _ | ⟨b, rs⟩
      · simp [numEmit]
      · cases b
        · simp [numEmit]
        · have := ih rs
          simp [numEmit]
          omega

theorem numEmit_first_false (rs1 : List Bool) :
    ∀ (n : Nat) (rs2 : List Bool), (∀ b ∈ rs1, b = true) →
      rs1.length < n → numEmit n (rs1 ++ false :: rs2) = rs1.length + 1 := by
  induction rs1 with
  | nil =>
      intro n rs2 _ hn
      match n, hn with
      | n + 1, _ => simp [numEmit]
  | cons b bs ih =>
      intro n rs2 hall hn
      have hb : b = true := hall b (List.mem_cons_self b bs)
      subst hb
      match n, hn with
      | n + 1, hn =>
          have h := ih n rs2 (fun x hx => hall x (List.mem_cons_of_mem _ hx))
            (by simp at hn; omega)
          simp [numEmit, h]

/-- Claim C9: a `Print` node of quantity `n` emits the output-request signal
with the current cell's value up to `n` times (`numEmit n responses ≤ n`
emissions, each recorded with the unchanged cell value), the walk continues
only when every emission succeeded, and the emissions stop at the first
failing response: when the response script is `rs1 ++ false :: rs2` with
`rs1` all-true and `rs1.length < n`, exactly `rs1.length + 1` emissions
happen. -/
theorem c9_print_stops_on_failure :
    (∀ (f : Nat) (cfg : CattleConfiguration) (q : Int)
        (lp nxt : CattleInstruction) (st : InterpState),
      runReal (f + 1) cfg (.node .print q lp nxt) st =
        match execPrint q.toNat st with
        | (st1, true) => runReal f cfg nxt st1
        | (st1, false) => some (st1, false)) ∧
    (∀ (n : Nat) (st : InterpState),
      (execPrint n st).1.output_trace =
        st.output_trace ++ List.replicate (numEmit n st.output_responses)
          (cattle_tape_get_current_value st.tape) ∧
      (execPrint n st).2 = printOk n st.output_responses ∧
      numEmit n st.output_responses ≤ n) ∧
    (∀ (n : Nat) (rs1 rs2 : List Bool) (st : InterpState),
      st.output_responses = rs1 ++ false :: rs2 →
      (∀ b ∈ rs1, b = true) → rs1.length < n →
      numEmit n st.output_responses = rs1.length + 1) := by
  refine ⟨fun f cfg q lp nxt st => rfl,
    fun n st => ⟨(execPrint_spec n st).1, (execPrint_spec n st).2,
      numEmit_le n st.output_responses⟩,
    fun n rs1 rs2 st hst hall hn => ?_⟩
  rw [hst]
  exact numEmit_first_false rs1 n rs2 hall hn

/-- Witness for C9 at a concrete input: with response script
`[true, false]` and quantity 3, exactly two emissions happen. -/
theorem c9_print_stops_on_failure_witness :
    numEmit 3 (mkState [] [true, false]).output_responses =
      [true].length + 1 :=
  c9_print_stops_on_failure.2.2 3 [true] [] (mkState [] [true, false]) rfl
    (by decide) (by decide)

/-- Claim C1 concerns the loop-failure behavior of `run_real`.  This theorem
records what the code actually does on the program `++[.-]` when the output
callback fails on its first invocation and succeeds afterwards: the
`while` loop of the `LOOP_BEGIN` case does not consult `success`, so the
engine keeps looping after the failed callback, emits two further outputs,
and the whole walk returns success — the failure is swallowed by the next
pass instead of aborting every enclosing invocation. -/
theorem c1_loop_ignores_failure :
    demoLoopState.output_responses = [false, true, true] ∧
    (runReal 50 demoCfg demoLoopProg demoLoopState).map
        (fun p => (p.2, p.1.output_trace)) = some (true, [2, 2, 1]) :=
  ⟨rfl, by decide⟩

/-- Claim C2 concerns the repetition of `Read`.  This theorem records what
the code actually does on a `Read` node of quantity 2 under the
`DO_NOTHING` on-EOF policy when the input callback supplies the line `"a"`
and then end-of-input: both repetitions consume input (both scripted
responses are used and the end-of-input flag is set), but the store step
runs only once, after the loop, with the final `EOF` temp — so the consumed
character 97 is never stored and the cell stays 0. -/
theorem c2_read_stores_once :
    (runReal 5 demoCfg (.node .read 2 .nil .nil) demoReadState).map
        (fun p => (p.2, cattle_tape_get_current_value p.1.tape,
          p.1.end_of_input_reached, p.1.input_responses)) =
      some (true, 0, true, []) := by
  rfl

/-- Claim C7: loading `"["` fails with `UnbalancedBrackets`, loading the
empty text succeeds, and in both cases — indeed after any parse failure —
the Program holds exactly the single `NoOp` node with no `next` and no
`loop`, the empty-program state. -/
theorem c7_parse_failure_resets :
    cattle_program_load ['['] =
      (emptyProgramState, some .unbalancedBrackets) ∧
    cattle_program_load [] = (emptyProgramState, none) ∧
    emptyProgramState.instructions = .node .noop 1 .nil .nil ∧
    (∀ (text : List Char) (e : CattleProgramError),
      (cattle_program_load text).2 = some e →
      (cattle_program_load text).1 = emptyProgramState) := by
  refine ⟨by decide, by decide, rfl, ?_⟩
  intro text e h
  simp only [cattle_program_load] at h ⊢
  cases hp : parseToks
      (compressToks ((splitBang text).1.filterMap classifyChar)) [[]] with
  | error e2 => simp [hp]
  | ok c =>
      cases c <;> simp [hp] at h

/-- Witness for C7 at a concrete input: the failed load of `"["` leaves the
Program in the empty-program state. -/
theorem c7_parse_failure_resets_witness :
    (cattle_program_load ['[']).1 = emptyProgramState :=
  c7_parse_failure_resets.2.2.2 ['['] .unbalancedBrackets (by decide)

end Cattle
